import Mathlib

/-!
Verification of the kurma boot-time orchestration and image-transfer code
(`init/bootstrap.go` and `client/cli/commands/create/cmd_create.go`) against
its natural-language specification.  Kernel-level effects (mount and
sethostname syscalls, netlink calls, file operations, image retrieval) are
passed in as explicit oracle parameters, and each embedded step function
returns its result together with the ordered trace of the effects it
performed, so that ordering and skipping behaviour can be stated and proved.
-/

namespace Kurma

/-! ## Model of Go regexp.MatchString

`configureNetwork` matches a link name against a config entry's `Device`
field with `regexp.MatchString(n.Device, linkName)` (unanchored search,
compile errors discarded by the `match, _ :=` form).  The patterns exercised
here use only literal characters, the any-character `.`, and `*` repetition,
so the model implements exactly that fragment of the external library. -/

/-- A single compiled pattern token: a literal character, a literal under `*`
repetition, the any-character dot, or dot under `*` repetition. -/
inductive RegexTok where
  | lit (c : Char)
  | litStar (c : Char)
  | dot
  | dotStar
deriving DecidableEq, Repr

/-- Compile a pattern string (as a character list) into tokens; a character
followed by `*` becomes its starred form. -/
def parseRegexToks : List Char → List RegexTok
  | [] => []
  | '.' :: '*' :: rest => RegexTok.dotStar :: parseRegexToks rest
  | '.' :: rest => RegexTok.dot :: parseRegexToks rest
  | c :: '*' :: rest => RegexTok.litStar c :: parseRegexToks rest
  | c :: rest => RegexTok.lit c :: parseRegexToks rest

/-- The suffixes of `s` reachable by consuming zero or more leading
characters equal to `c`: the continuation points of a starred literal. -/
def starSuffixesLit (c : Char) : List Char → List (List Char)
  | [] => [[]]
  | x :: xs => (x :: xs) :: (if x == c then starSuffixesLit c xs else [])

/-- Match a token list against a prefix of the subject; a starred token may
consume any number of admissible leading characters before the rest of the
token list continues. -/
def matchHere : List RegexTok → List Char → Bool
  | [], _ => true
  | RegexTok.lit c :: ts, s =>
    match s with
    | [] => false
    | x :: xs => x == c && matchHere ts xs
  | RegexTok.dot :: ts, s =>
    match s with
    | [] => false
    | _ :: xs => matchHere ts xs
  | RegexTok.litStar c :: ts, s => (starSuffixesLit c s).any fun s2 => matchHere ts s2
  | RegexTok.dotStar :: ts, s => (List.tails s).any fun s2 => matchHere ts s2

/-- Unanchored search: try to match at every start position of the subject. -/
def searchFrom (ts : List RegexTok) (s : List Char) : Bool :=
  (List.tails s).any fun s2 => matchHere ts s2

/-- Model of Go `regexp.MatchString pattern s` for the pattern fragment
described above: unanchored match of the compiled pattern anywhere in `s`. -/
def regexpMatchString (pattern s : String) : Bool :=
  searchFrom (parseRegexToks pattern.toList) s.toList

/-! ## Network interface matching (bootstrap.go, configureNetwork link loop) -/

/-- One entry of the network configuration's `Interfaces` list.  The matching
loop in `configureNetwork` reads only the `Device` field; the addressing
fields of the source structure are defined outside the provided sources and
play no role in entry selection. -/
structure kurmaNetworkInterface where
  Device : String
deriving DecidableEq, Repr

/-- The entry-selection loop of `configureNetwork` (bootstrap.go lines
202-212): walk the configured entries in order and take the first whose
`Device` field is string-equal to the link name or, failing that, regex-matches
the link name; both checks happen per entry before the next entry is tried. -/
def findNetconf (linkName : String) : List kurmaNetworkInterface → Option kurmaNetworkInterface
  | [] => none
  | n :: rest =>
    if linkName == n.Device then some n
    else if regexpMatchString n.Device linkName then some n
    else findNetconf linkName rest

/-- The selection rule as the spec words it (two global passes): first the
first entry whose `Device` exactly equals the link name across all entries,
and only if no entry matches exactly, the first entry whose `Device`
regex-matches the link name.  Stated for comparison with `findNetconf`. -/
def findNetconfSpecTwoPass (linkName : String) (ifaces : List kurmaNetworkInterface) :
    Option kurmaNetworkInterface :=
  match ifaces.find? (fun n => linkName == n.Device) with
  | some n => some n
  | none => ifaces.find? (fun n => regexpMatchString n.Device linkName)

/-- Claim C1 counterexample: for link name `eth0` and entries
`[{device: eth.}, {device: eth0}]` the code selects the FIRST entry (its
pattern regex-matches before the second entry is ever considered), while the
claimed two-pass rule selects the second entry (the exact match); so exact
equality is not considered across all entries before regex matching. -/
theorem C1_counterexample :
    findNetconf "eth0" [⟨"eth."⟩, ⟨"eth0"⟩] = some ⟨"eth."⟩ ∧
    findNetconfSpecTwoPass "eth0" [⟨"eth."⟩, ⟨"eth0"⟩] = some ⟨"eth0"⟩ ∧
    findNetconf "eth0" [⟨"eth."⟩, ⟨"eth0"⟩] ≠
      findNetconfSpecTwoPass "eth0" [⟨"eth."⟩, ⟨"eth0"⟩] := by
  decide

/-- Claim C1 (amended): the configurator walks the entries in configured
order and selects the first entry whose device field exactly equals the link
name or, interpreted as a regular expression, matches it -- exact and regex
matching are tried per entry, not in two global passes.  For the claim's own
example, link `eth0` with entries `[{device: eth1}, {device: eth0}]`, the
second entry is still selected, because `eth1` neither equals nor
regex-matches `eth0`. -/
theorem C1_amended_matching (linkName : String) (ifaces : List kurmaNetworkInterface) :
    findNetconf linkName ifaces =
      ifaces.find? (fun n => linkName == n.Device || regexpMatchString n.Device linkName) ∧
    findNetconf "eth0" [⟨"eth1"⟩, ⟨"eth0"⟩] = some ⟨"eth0"⟩ := by
  constructor
  · induction ifaces with
    | nil => rfl
    | cons n rest ih =>
      by_cases h1 : (linkName == n.Device) = true
      · simp [findNetconf, List.find?, h1]
      · by_cases h2 : regexpMatchString n.Device linkName = true
        · simp [findNetconf, List.find?, h1, h2]
        · simp only [Bool.not_eq_true] at h1 h2
          simp [findNetconf, List.find?, h1, h2, ih]
  · decide

/-! ## Mount orchestrator (bootstrap.go, createSystemMounts) -/

deriving instance DecidableEq for Except

/-- Result discriminator for the `Except String Unit` results used by the
oracle-parameterised step functions. -/
def isOkE : Except String Unit → Bool
  | Except.ok _ => true
  | Except.error _ => false

theorem isOkE_eq_true {x : Except String Unit} : isOkE x = true ↔ x = Except.ok () := by
  cases x with
  | ok u => cases u; simp [isOkE]
  | error e => simp [isOkE]

/-- One observable action of the mount loop: either skipping a target that is
already mounted (trace-logged only) or invoking the mount syscall through
`handleMount source location fstype options`. -/
inductive MountEvent where
  | skip (location : String)
  | attempt (source location fstype : String)
deriving DecidableEq, Repr

/-- The loop body of `createSystemMounts` (bootstrap.go lines 83-98) over an
arbitrary spec list.  Each spec element is `(location, source, fstype)`, in
the order of the source's `systemMounts` arrays.  `mount` is the
`handleMount` collaborator (the kernel mount syscall wrapper, defined outside
the provided sources), `existing` the set of already-mounted target paths
read from the mount table.  Returns the Go function's result together with
the ordered trace of skips and mount attempts. -/
def mountLoop (mount : String → String → String → String → Except String Unit)
    (existing : List String) :
    List (String × String × String) → Except String Unit × List MountEvent
  | [] => (Except.ok (), [])
  | (location, source, fstype) :: rest =>
    if location ∈ existing then
      ((mountLoop mount existing rest).1,
        MountEvent.skip location :: (mountLoop mount existing rest).2)
    else
      match mount source location fstype "" with
      | Except.error e =>
        (Except.error ("failed to mount " ++ location ++ ": " ++ e),
          [MountEvent.attempt source location fstype])
      | Except.ok _ =>
        ((mountLoop mount existing rest).1,
          MountEvent.attempt source location fstype :: (mountLoop mount existing rest).2)

/-- The root of the cgroup tmpfs.  The `cgroupsMount` constant is declared in
a part of the package outside the provided sources; the spec describes it as
the writable tmpfs under which the per-controller cgroup mounts are created
(the `/sys/fs/cgroup`-equivalent path). -/
def cgroupsMount : String := "/sys/fs/cgroup"

/-- The fixed ordered mount table of `createSystemMounts` (bootstrap.go lines
52-62), elements `(location, source, fstype)`. -/
def systemMounts : List (String × String × String) :=
  [("/dev", "devtmpfs", "devtmpfs"),
   ("/dev/pts", "none", "devpts"),
   ("/proc", "none", "proc"),
   ("/sys", "none", "sysfs"),
   ("/tmp", "none", "tmpfs"),
   ("/var/kurma", "none", "tmpfs"),
   (cgroupsMount, "none", "tmpfs")]

/-- `createSystemMounts`: run the mount loop over the fixed system mount
table. -/
def createSystemMounts (mount : String → String → String → String → Except String Unit)
    (existing : List String) : Except String Unit × List MountEvent :=
  mountLoop mount existing systemMounts

/-- Claim C4: for every mount-spec list (split here as `pre ++ m :: post`
around the first failing entry) and every set of pre-existing mounts, the
loop attempts the non-preexisting mounts in exactly the listed order, and on
the first mount failure it returns immediately a wrapped error identifying
the failing target; nothing in `post` is attempted (the trace ends at the
failing entry). -/
theorem C4_mount_order_abort
    (mount : String → String → String → String → Except String Unit)
    (existing : List String) (pre post : List (String × String × String))
    (m : String × String × String) (e : String)
    (hok : ∀ x ∈ pre, x.1 ∉ existing → isOkE (mount x.2.1 x.1 x.2.2 "") = true)
    (hm : m.1 ∉ existing)
    (hfail : mount m.2.1 m.1 m.2.2 "" = Except.error e) :
    mountLoop mount existing (pre ++ m :: post)
      = (Except.error ("failed to mount " ++ m.1 ++ ": " ++ e),
         pre.map (fun x =>
             if x.1 ∈ existing then MountEvent.skip x.1
             else MountEvent.attempt x.2.1 x.1 x.2.2)
           ++ [MountEvent.attempt m.2.1 m.1 m.2.2]) := by
  induction pre with
  | nil =>
    obtain ⟨l, s, f⟩ := m
    simp only [List.nil_append, List.map_nil, mountLoop]
    rw [if_neg hm, hfail]
  | cons x pre ih =>
    obtain ⟨l, s, f⟩ := x
    by_cases hx : l ∈ existing
    · simp only [List.cons_append, mountLoop, if_pos hx, List.map_cons, List.append_eq]
      rw [ih (fun y hy => hok y (List.mem_cons_of_mem _ hy))]
    · have hxo : mount s l f "" = Except.ok () :=
        isOkE_eq_true.mp (hok (l, s, f) (List.mem_cons_self _ _) hx)
      simp only [List.cons_append, mountLoop, if_neg hx, hxo, List.map_cons, List.append_eq]
      rw [ih (fun y hy => hok y (List.mem_cons_of_mem _ hy))]

/-- A concrete mount collaborator for the C4 witness: mounting `/proc` fails,
everything else succeeds. -/
def mount4 : String → String → String → String → Except String Unit :=
  fun _ location _ _ =>
    if location == "/proc" then Except.error "no such device" else Except.ok ()

/-- Witness for C4 at a concrete run: `/dev` is already mounted (skipped),
`/dev/pts` mounts, `/proc` fails, and `/sys` is never attempted. -/
theorem C4_witness :
    mountLoop mount4 ["/dev"]
        ([("/dev", "devtmpfs", "devtmpfs"), ("/dev/pts", "none", "devpts")]
          ++ ("/proc", "none", "proc") :: [("/sys", "none", "sysfs")])
      = (Except.error ("failed to mount " ++ "/proc" ++ ": " ++ "no such device"),
         [("/dev", "devtmpfs", "devtmpfs"), ("/dev/pts", "none", "devpts")].map (fun x =>
             if x.1 ∈ ["/dev"] then MountEvent.skip x.1
             else MountEvent.attempt x.2.1 x.1 x.2.2)
           ++ [MountEvent.attempt "none" "/proc" "proc"]) :=
  C4_mount_order_abort mount4 ["/dev"] _ _ _ _ (by decide) (by decide) (by decide)

/-- Claim C5: for a mount target `l` already present in the existing-mounts
snapshot, the loop never issues a mount syscall for that target, and when
every target of the system mount table is already present the whole operation
succeeds with a trace of only skips. -/
theorem C5_existing_skipped
    (mount : String → String → String → String → Except String Unit)
    (existing : List String) (specs : List (String × String × String))
    (l : String) (hl : l ∈ existing) :
    (∀ s f, MountEvent.attempt s l f ∉ (mountLoop mount existing specs).2) ∧
    ((∀ x ∈ specs, x.1 ∈ existing) →
      mountLoop mount existing specs
        = (Except.ok (), specs.map (fun x => MountEvent.skip x.1))) := by
  constructor
  · intro s f
    induction specs with
    | nil => simp [mountLoop]
    | cons x rest ih =>
      obtain ⟨xl, xs, xf⟩ := x
      by_cases hx : xl ∈ existing
      · simp only [mountLoop, if_pos hx, List.mem_cons]
        rintro (h | h)
        · cases h
        · exact ih h
      · simp only [mountLoop, if_neg hx]
        cases hmt : mount xs xl xf "" with
        | error e =>
          simp only [List.mem_cons, List.not_mem_nil, or_false]
          intro h
          cases h
          exact hx hl
        | ok u =>
          simp only [List.mem_cons]
          rintro (h | h)
          · cases h; exact hx hl
          · exact ih h
  · intro hall
    induction specs with
    | nil => simp [mountLoop]
    | cons x rest ih =>
      obtain ⟨xl, xs, xf⟩ := x
      have hx : xl ∈ existing := hall (xl, xs, xf) (List.mem_cons_self _ _)
      have ihr := ih (fun y hy => hall y (List.mem_cons_of_mem _ hy))
      simp only [mountLoop, if_pos hx, ihr, List.map_cons]

/-- A mount collaborator that fails on any invocation, used to witness that
no mount syscall happens when every target already exists. -/
def mountNever : String → String → String → String → Except String Unit :=
  fun _ _ _ _ => Except.error "mount syscall issued"

/-- Witness for C5: with every system mount target already present, the
always-failing mount collaborator is never invoked and the operation
succeeds with a trace of skips. -/
theorem C5_witness :
    (∀ s f,
        MountEvent.attempt s "/proc" f ∉
          (mountLoop mountNever
            ["/dev", "/dev/pts", "/proc", "/sys", "/tmp", "/var/kurma", "/sys/fs/cgroup"]
            systemMounts).2) ∧
    ((∀ x ∈ systemMounts,
        x.1 ∈ ["/dev", "/dev/pts", "/proc", "/sys", "/tmp", "/var/kurma", "/sys/fs/cgroup"]) →
      mountLoop mountNever
          ["/dev", "/dev/pts", "/proc", "/sys", "/tmp", "/var/kurma", "/sys/fs/cgroup"]
          systemMounts
        = (Except.ok (), systemMounts.map (fun x => MountEvent.skip x.1))) :=
  C5_existing_skipped mountNever _ systemMounts "/proc" (by decide)

/-! ## Cgroup hierarchy initialisation (bootstrap.go, mountCgroups) -/

/-- The fixed controller list of `mountCgroups` (bootstrap.go lines
112-118). -/
def cgroupTypes : List String :=
  ["blkio", "cpu", "cpuacct", "devices", "memory"]

/-- The memory hierarchy-mode configuration closure of `mountCgroups`
(bootstrap.go lines 132-143): open the `memory.use_hierarchy` control file
(`openF` is the outcome of the `os.OpenFile` call) and write the literal
value `1` to it (`writeF` the outcome of the `WriteString` call); either
failure is wrapped and returned.  The second wrapping message reproduces the
source's spelling. -/
def memoryHierarchyStep (openF writeF : Except String Unit) : Except String Unit :=
  match openF with
  | Except.error e => Except.error ("Failed to configure memory hierarchy: " ++ e)
  | Except.ok _ =>
    match writeF with
    | Except.error e => Except.error ("Failed to configure memory heirarchy: " ++ e)
    | Except.ok _ => Except.ok ()

/-- The loop of `mountCgroups` (bootstrap.go lines 123-148): mount each
controller as a cgroup filesystem under `cgroupsMount/<name>` with the
controller name as mount option, aborting on the first failure; after the
`memory` controller mounts, run the hierarchy-mode step and abort if it
fails. -/
def mountCgroupsLoop (mount : String → String → String → String → Except String Unit)
    (openF writeF : Except String Unit) : List String → Except String Unit
  | [] => Except.ok ()
  | t :: rest =>
    match mount "none" (cgroupsMount ++ "/" ++ t) "cgroup" t with
    | Except.error e => Except.error ("failed to mount cgroup " ++ t ++ ": " ++ e)
    | Except.ok _ =>
      if t == "memory" then
        match memoryHierarchyStep openF writeF with
        | Except.error e => Except.error e
        | Except.ok _ => mountCgroupsLoop mount openF writeF rest
      else mountCgroupsLoop mount openF writeF rest

/-- `mountCgroups`: run the controller loop over the fixed controller
list. -/
def mountCgroups (mount : String → String → String → String → Except String Unit)
    (openF writeF : Except String Unit) : Except String Unit :=
  mountCgroupsLoop mount openF writeF cgroupTypes

/-- Claim C6: when every controller mount succeeds (in particular the memory
controller's) but opening or writing the memory hierarchy-mode control file
fails, the whole `mountCgroups` operation returns an error -- no silent
partial success. -/
theorem C6_hierarchy_write_fatal
    (mount : String → String → String → String → Except String Unit)
    (openF writeF : Except String Unit)
    (hmounts : ∀ t ∈ cgroupTypes,
      isOkE (mount "none" (cgroupsMount ++ "/" ++ t) "cgroup" t) = true)
    (hfail : isOkE openF = false ∨ isOkE writeF = false) :
    isOkE (mountCgroups mount openF writeF) = false := by
  have hb := isOkE_eq_true.mp (hmounts "blkio" (by simp [cgroupTypes]))
  have hc := isOkE_eq_true.mp (hmounts "cpu" (by simp [cgroupTypes]))
  have ha := isOkE_eq_true.mp (hmounts "cpuacct" (by simp [cgroupTypes]))
  have hd := isOkE_eq_true.mp (hmounts "devices" (by simp [cgroupTypes]))
  have hmem := isOkE_eq_true.mp (hmounts "memory" (by simp [cgroupTypes]))
  have hstep : isOkE (memoryHierarchyStep openF writeF) = false := by
    cases openF with
    | error e => simp [memoryHierarchyStep, isOkE]
    | ok u =>
      cases u
      cases writeF with
      | error e => simp [memoryHierarchyStep, isOkE]
      | ok u2 =>
        cases u2
        rcases hfail with h | h <;> simp [isOkE] at h
  simp only [mountCgroups, cgroupTypes, mountCgroupsLoop, hb, hc, ha, hd, hmem]
  cases hms : memoryHierarchyStep openF writeF with
  | error e => simp [isOkE]
  | ok u => rw [hms] at hstep; simp [isOkE] at hstep

/-- Witness for C6: all controller mounts succeed, opening the hierarchy
control file fails, and the whole operation reports failure. -/
theorem C6_witness :
    isOkE (mountCgroups (fun _ _ _ _ => Except.ok ())
        (Except.error "permission denied") (Except.ok ())) = false :=
  C6_hierarchy_write_fatal _ _ _ (by decide) (Or.inl (by decide))

/-! ## Hostname step (bootstrap.go, configureHostname) -/

/-- Observable actions of the hostname step. -/
inductive HostnameEvent where
  | setAttempt (hostname : String)
  | warnSetFailed (e : String)
deriving DecidableEq, Repr

/-- `configureHostname` (bootstrap.go lines 171-181): an empty configured
hostname is a no-op; otherwise the sethostname syscall is attempted and a
failure is only logged.  `sethostname` is the syscall collaborator. -/
def configureHostname (sethostname : String → Except String Unit)
    (hostname : String) : Except String Unit × List HostnameEvent :=
  if hostname = "" then (Except.ok (), [])
  else
    match sethostname hostname with
    | Except.error e =>
      (Except.ok (), [HostnameEvent.setAttempt hostname, HostnameEvent.warnSetFailed e])
    | Except.ok _ => (Except.ok (), [HostnameEvent.setAttempt hostname])

/-- Claim C10: the hostname step never returns an error, whatever the
configured hostname and whatever the syscall does; and for the empty
hostname it performs no action at all. -/
theorem C10_hostname_never_fails (sethostname : String → Except String Unit)
    (hostname : String) :
    (configureHostname sethostname hostname).1 = Except.ok () ∧
    (configureHostname sethostname "").2 = [] := by
  constructor
  · unfold configureHostname
    by_cases h : hostname = ""
    · simp [h]
    · rw [if_neg h]
      cases sethostname hostname <;> simp
  · rfl

/-! ## Network configurator (bootstrap.go, configureNetwork) -/

/-- The fields of the network configuration read by `configureNetwork`:
the ordered interface entry list, the gateway address string, and the
ordered DNS server list. -/
structure kurmaNetworkConfig where
  Interfaces : List kurmaNetworkInterface
  Gateway : String
  DNS : List String
deriving Repr

/-- Observable actions of `configureNetwork`, in program order.  An IP
address value (the result of `net.ParseIP`) is modelled as a byte list;
`routeAddAttempt` records the `Gw` value handed to `netlink.RouteAdd`
(`none` is Go's nil IP). -/
inductive NetEvent where
  | warnNoConfig
  | configuringLink (link : String)
  | warnNoMatch (link : String)
  | appliedInterface (link : String) (dev : String)
  | warnApply (link : String) (e : String)
  | warnGatewayParse (gw : String)
  | routeAddAttempt (gw : Option (List Nat))
  | warnRouteAdd (e : String)
  | infoGateway (gw : String)
  | removedResolvConf
  | openedResolvConf
  | wroteNameserver (ns : String)
deriving DecidableEq, Repr

/-- The external collaborators of `configureNetwork`: link enumeration
(`netlink.LinkList`, as the discovered link names), IP parsing
(`net.ParseIP`, `none` for an unparseable address), per-link configuration
(`configureInterface`), default-route installation (`netlink.RouteAdd` on a
universal-scope route whose `Gw` is the given value), and the resolver file
operations (`os.RemoveAll`, `os.OpenFile` and the per-line `fmt.Fprintf` on
`/etc/resolv.conf`). -/
structure NetworkOracle where
  linkList : List String
  parseIP : String → Option (List Nat)
  configureInterface : String → kurmaNetworkInterface → Except String Unit
  routeAdd : Option (List Nat) → Except String Unit
  removeResolvConf : Except String Unit
  openResolvConf : Except String Unit
  writeNameserver : String → Except String Unit

/-- The per-link body of `configureNetwork` (bootstrap.go lines 197-224):
select an entry with `findNetconf`; a missing match is only a warning; a
`configureInterface` failure is only a warning. -/
def configureLink (o : NetworkOracle) (cfg : kurmaNetworkConfig)
    (linkName : String) : List NetEvent :=
  NetEvent.configuringLink linkName ::
    match findNetconf linkName cfg.Interfaces with
    | none => [NetEvent.warnNoMatch linkName]
    | some n =>
      match o.configureInterface linkName n with
      | Except.error e => [NetEvent.warnApply linkName e]
      | Except.ok _ => [NetEvent.appliedInterface linkName n.Device]

/-- The parse-warning prefix of the gateway block (bootstrap.go lines
228-231): a nil parse result is logged, and control falls through. -/
def gatewayParseEvents (o : NetworkOracle) (gw : String) : List NetEvent :=
  match o.parseIP gw with
  | none => [NetEvent.warnGatewayParse gw]
  | some _ => []

/-- The gateway block of `configureNetwork` (bootstrap.go lines 227-242).
The returned boolean is true when the block makes the enclosing function
return `nil` immediately (the `return nil` inside the `RouteAdd` error
branch), so that the DNS block is skipped.  Note the source attempts
`RouteAdd` even when the gateway string did not parse (the parse failure
only logs). -/
def gatewayStep (o : NetworkOracle) (gw : String) : Bool × List NetEvent :=
  if gw == "" then (false, [])
  else
    match o.routeAdd (o.parseIP gw) with
    | Except.error e =>
      (true, gatewayParseEvents o gw ++
        [NetEvent.routeAddAttempt (o.parseIP gw), NetEvent.warnRouteAdd e])
    | Except.ok _ =>
      (false, gatewayParseEvents o gw ++
        [NetEvent.routeAddAttempt (o.parseIP gw), NetEvent.infoGateway gw])

/-- The nameserver-writing loop of the DNS block (bootstrap.go lines
255-259): one `nameserver` line per configured server, in order, aborting
with the write error on failure. -/
def writeNameservers (o : NetworkOracle) : List String → Except String Unit × List NetEvent
  | [] => (Except.ok (), [])
  | ns :: rest =>
    match o.writeNameserver ns with
    | Except.error e => (Except.error e, [])
    | Except.ok _ =>
      ((writeNameservers o rest).1,
        NetEvent.wroteNameserver ns :: (writeNameservers o rest).2)

/-- The DNS block of `configureNetwork` (bootstrap.go lines 245-260):
when servers are configured, remove and recreate the resolver file and
write the nameserver lines; removal and open failures are returned. -/
def dnsStep (o : NetworkOracle) (dns : List String) : Except String Unit × List NetEvent :=
  if dns.length > 0 then
    match o.removeResolvConf with
    | Except.error e => (Except.error e, [])
    | Except.ok _ =>
      match o.openResolvConf with
      | Except.error e => (Except.error e, [NetEvent.removedResolvConf])
      | Except.ok _ =>
        ((writeNameservers o dns).1,
          NetEvent.removedResolvConf :: NetEvent.openedResolvConf ::
            (writeNameservers o dns).2)
  else (Except.ok (), [])

/-- `configureNetwork` (bootstrap.go lines 186-263): a missing configuration
is logged and succeeds; otherwise each discovered link is configured, then
the gateway block runs (its early return skips everything after it), then
the DNS block. -/
def configureNetwork (o : NetworkOracle) (cfg : Option kurmaNetworkConfig) :
    Except String Unit × List NetEvent :=
  match cfg with
  | none => (Except.ok (), [NetEvent.warnNoConfig])
  | some c =>
    if (gatewayStep o c.Gateway).1 then
      (Except.ok (),
        (o.linkList.map (configureLink o c)).flatten ++ (gatewayStep o c.Gateway).2)
    else
      ((dnsStep o c.DNS).1,
        (o.linkList.map (configureLink o c)).flatten ++ (gatewayStep o c.Gateway).2
          ++ (dnsStep o c.DNS).2)

theorem wroteNameserver_not_in_configureLink (o : NetworkOracle)
    (cfg : kurmaNetworkConfig) (l ns : String) :
    NetEvent.wroteNameserver ns ∉ configureLink o cfg l := by
  simp only [configureLink]
  cases findNetconf l cfg.Interfaces with
  | none => simp
  | some n => cases h : o.configureInterface l n <;> simp [h]

/-- Claim C2 (amended): when a gateway is configured and installing the
default route fails, `configureNetwork` logs the failure and returns
success without returning the route error -- but it returns early: the
resolver file is not touched and no nameserver line is written, however many
DNS servers are configured. -/
theorem C2_amended_route_failure (o : NetworkOracle) (cfg : kurmaNetworkConfig)
    (e : String)
    (hgw : (cfg.Gateway == "") = false)
    (hroute : o.routeAdd (o.parseIP cfg.Gateway) = Except.error e) :
    (configureNetwork o (some cfg)).1 = Except.ok () ∧
    NetEvent.warnRouteAdd e ∈ (configureNetwork o (some cfg)).2 ∧
    (∀ ns, NetEvent.wroteNameserver ns ∉ (configureNetwork o (some cfg)).2) := by
  have hstep : gatewayStep o cfg.Gateway =
      (true, gatewayParseEvents o cfg.Gateway ++
        [NetEvent.routeAddAttempt (o.parseIP cfg.Gateway), NetEvent.warnRouteAdd e]) := by
    simp only [gatewayStep, hgw, Bool.false_eq_true, if_false, hroute]
  refine ⟨?_, ?_, ?_⟩
  · simp [configureNetwork, hstep]
  · simp [configureNetwork, hstep]
  · intro ns hmem
    simp only [configureNetwork, hstep] at hmem
    rcases List.mem_append.mp hmem with h | h
    · rcases List.mem_flatten.mp h with ⟨evs, hevs, hmem2⟩
      rcases List.mem_map.mp hevs with ⟨lnk, _, rfl⟩
      exact wroteNameserver_not_in_configureLink o cfg lnk ns hmem2
    · rcases List.mem_append.mp h with h1 | h1
      · simp only [gatewayParseEvents] at h1
        cases hp : o.parseIP cfg.Gateway <;> rw [hp] at h1 <;> simp at h1
      · simp at h1

/-- The concrete oracle for the C2 counterexample and witness: the gateway
string parses, route installation fails, the resolver operations would all
succeed. -/
def c2Oracle : NetworkOracle where
  linkList := []
  parseIP := fun _ => some [10, 0, 0, 1]
  configureInterface := fun _ _ => Except.ok ()
  routeAdd := fun _ => Except.error "network is unreachable"
  removeResolvConf := Except.ok ()
  openResolvConf := Except.ok ()
  writeNameserver := fun _ => Except.ok ()

/-- The concrete configuration for the C2 counterexample and witness: a
parseable gateway and one DNS server. -/
def c2Config : kurmaNetworkConfig where
  Interfaces := []
  Gateway := "10.0.0.1"
  DNS := ["8.8.8.8"]

/-- Claim C2 counterexample: with a configured gateway whose route
installation fails and a non-empty DNS list, the network step returns
success (so the route error is indeed not returned) but writes no
nameserver line and never removes the resolver file -- contradicting the
claim that it still proceeds to replace the resolver. -/
theorem C2_counterexample :
    (configureNetwork c2Oracle (some c2Config)).1 = Except.ok () ∧
    NetEvent.warnRouteAdd "network is unreachable" ∈
      (configureNetwork c2Oracle (some c2Config)).2 ∧
    NetEvent.wroteNameserver "8.8.8.8" ∉ (configureNetwork c2Oracle (some c2Config)).2 ∧
    NetEvent.removedResolvConf ∉ (configureNetwork c2Oracle (some c2Config)).2 := by
  decide

/-- Witness for C2 (amended) at the concrete oracle and configuration. -/
theorem C2_witness :
    (configureNetwork c2Oracle (some c2Config)).1 = Except.ok () ∧
    NetEvent.wroteNameserver "8.8.8.8" ∉ (configureNetwork c2Oracle (some c2Config)).2 :=
  ⟨(C2_amended_route_failure c2Oracle c2Config "network is unreachable"
      (by decide) rfl).1,
   (C2_amended_route_failure c2Oracle c2Config "network is unreachable"
      (by decide) rfl).2.2 "8.8.8.8"⟩

/-- The concrete oracle for C3: the gateway string does not parse
(`net.ParseIP` yields nil), and `RouteAdd` fails as the kernel would on a
nil gateway. -/
def c3Oracle : NetworkOracle where
  linkList := []
  parseIP := fun _ => none
  configureInterface := fun _ _ => Except.ok ()
  routeAdd := fun _ => Except.error "invalid argument"
  removeResolvConf := Except.ok ()
  openResolvConf := Except.ok ()
  writeNameserver := fun _ => Except.ok ()

/-- The concrete configuration for C3: an unparseable gateway string. -/
def c3Config : kurmaNetworkConfig where
  Interfaces := []
  Gateway := "bogus"
  DNS := ["8.8.8.8"]

/-- Claim C3 (code evaluation): for an unparseable gateway the code logs the
parse warning but does NOT skip gateway configuration -- it falls through
and hands the nil gateway to `netlink.RouteAdd` (the `routeAddAttempt none`
event), whose failure then ends the step early (still non-fatal, but also
skipping DNS).  The claim's "no route-install is attempted" is false on the
code; the missing early return after the warning is the slip. -/
theorem C3_code_eval :
    NetEvent.warnGatewayParse "bogus" ∈ (configureNetwork c3Oracle (some c3Config)).2 ∧
    NetEvent.routeAddAttempt none ∈ (configureNetwork c3Oracle (some c3Config)).2 ∧
    (configureNetwork c3Oracle (some c3Config)).1 = Except.ok () := by
  decide

/-! ## Manifest extraction (cmd_create.go, findManifest)

`findManifest` compares each archive entry's name cleaned with
`filepath.Clean` against the literal `manifest`.  `filepathClean` below is a
translation of the Go standard library's lexical path cleaning for
slash-separated paths: iterate the path elements, dropping empty and `.`
elements, resolving `..` against the output buffer (backtracking past the
last written element unless blocked by the root or by leading `..`
elements), and joining the remaining elements with single slashes; the empty
result becomes `.`.  The output buffer is kept reversed (head = last written
character) so that backtracking is list traversal. -/

/-- Split a character list into its `/`-separated runs (empty runs appear
for leading, trailing or doubled slashes and are skipped by the cleaner). -/
def splitPathElems : List Char → List (List Char)
  | [] => [[]]
  | '/' :: rest => [] :: splitPathElems rest
  | c :: rest =>
    match splitPathElems rest with
    | [] => [[c]]
    | e :: es => (c :: e) :: es

/-- Backtracking loop over the reversed output buffer: starting after one
character was dropped (`last`), keep dropping while the buffer is longer
than the `dd` boundary and the last dropped character was not a slash. -/
def backtrackLoop (dd : Nat) : Char → List Char → List Char
  | _, [] => []
  | last, c :: rest =>
    if dd < (c :: rest).length ∧ last ≠ '/' then backtrackLoop dd c rest
    else c :: rest

/-- Resolve one `..` element against the reversed output buffer: drop the
last character unconditionally, then backtrack to just before the previous
slash (bounded below by `dd`). -/
def backtrackEntry (dd : Nat) : List Char → List Char
  | [] => []
  | c :: rest => backtrackLoop dd c rest

/-- The element loop of the path cleaner; `out` is the reversed output
buffer and `dd` the index boundary below which `..` may not backtrack (the
root slash, or the end of leading `..` elements in a relative path). -/
def cleanElems (rooted : Bool) : List (List Char) → List Char → Nat → List Char
  | [], out, _ => out
  | elem :: rest, out, dd =>
    if elem = [] then cleanElems rooted rest out dd
    else if elem = ['.'] then cleanElems rooted rest out dd
    else if elem = ['.', '.'] then
      if dd < out.length then cleanElems rooted rest (backtrackEntry dd out) dd
      else if rooted = false then
        cleanElems rooted rest
          ('.' :: '.' :: (if out.length ≠ 0 then '/' :: out else out))
          ('.' :: '.' :: (if out.length ≠ 0 then '/' :: out else out)).length
      else cleanElems rooted rest out dd
    else
      cleanElems rooted rest
        (elem.reverse ++
          (if (rooted = true ∧ out.length ≠ 1) ∨ (rooted = false ∧ out.length ≠ 0)
           then ['/'] else []) ++ out)
        dd

/-- Go `path/filepath.Clean` for slash-separated paths: the empty path is
`.`, a rooted path keeps its leading slash as the backtracking boundary, and
an empty cleaning result becomes `.`. -/
def filepathClean (path : String) : String :=
  match path.toList with
  | [] => "."
  | c :: rest =>
    let out :=
      if c = '/' then cleanElems true (splitPathElems rest) ['/'] 1
      else cleanElems false (splitPathElems (c :: rest)) [] 0
    if out.length = 0 then "." else String.mk out.reverse

/-- The tar header fields read by `findManifest`. -/
structure TarHeader where
  Name : String
deriving DecidableEq, Repr

/-- One step of the archive-entry iterator obtained from
`tarhelper.DetectArchiveCompression`: either the next entry (header plus the
bytes `ioutil.ReadAll` would return for it) or a non-EOF stream-read error;
the end of the list is `io.EOF`. -/
inductive ArchiveItem where
  | next (header : TarHeader) (content : List Nat)
  | readErr (e : String)
deriving DecidableEq, Repr

/-- `findManifest` (cmd_create.go lines 76-101): iterate the entries; EOF
without a match is the manifest-not-found error, a stream error aborts, and
the first entry whose cleaned name equals `manifest` is read fully and
returned. -/
def findManifest : List ArchiveItem → Except String (List Nat)
  | [] => Except.error "failed to locate manifest file"
  | ArchiveItem.readErr e :: _ => Except.error e
  | ArchiveItem.next h content :: rest =>
    if filepathClean h.Name ≠ "manifest" then findManifest rest
    else Except.ok content

/-- An archive item that is a well-read entry whose cleaned name is not
`manifest` (the items `findManifest` may pass over without stopping). -/
def isNonManifestEntry : ArchiveItem → Bool
  | ArchiveItem.next h _ => filepathClean h.Name != "manifest"
  | ArchiveItem.readErr _ => false

/-- Claim C7: an archive stream whose entries before the first
`manifest`-named entry are ordinary non-manifest entries yields exactly that
entry's content; and a stream exhausted without any manifest entry fails
with the manifest-not-found error. -/
theorem C7_findManifest_spec (pre post : List ArchiveItem) (h : TarHeader)
    (content : List Nat)
    (hpre : ∀ i ∈ pre, isNonManifestEntry i = true)
    (hm : filepathClean h.Name = "manifest") :
    findManifest (pre ++ ArchiveItem.next h content :: post) = Except.ok content ∧
    (∀ items : List ArchiveItem, (∀ i ∈ items, isNonManifestEntry i = true) →
      findManifest items = Except.error "failed to locate manifest file") := by
  constructor
  · induction pre with
    | nil => simp [findManifest, hm]
    | cons i pre ih =>
      cases i with
      | readErr e =>
        have := hpre (ArchiveItem.readErr e) (List.mem_cons_self _ _)
        simp [isNonManifestEntry] at this
      | next h2 c2 =>
        have hne := hpre (ArchiveItem.next h2 c2) (List.mem_cons_self _ _)
        simp only [isNonManifestEntry, bne_iff_ne, ne_eq] at hne
        simp only [List.cons_append, findManifest, ne_eq, hne, not_false_eq_true, if_true]
        exact ih fun y hy => hpre y (List.mem_cons_of_mem _ hy)
  · intro items hall
    induction items with
    | nil => rfl
    | cons i items ih =>
      cases i with
      | readErr e =>
        have := hall (ArchiveItem.readErr e) (List.mem_cons_self _ _)
        simp [isNonManifestEntry] at this
      | next h2 c2 =>
        have hne := hall (ArchiveItem.next h2 c2) (List.mem_cons_self _ _)
        simp only [isNonManifestEntry, bne_iff_ne, ne_eq] at hne
        simp only [findManifest, ne_eq, hne, not_false_eq_true, if_true]
        exact ih fun y hy => hall y (List.mem_cons_of_mem _ hy)

/-- Witness for C7: a two-entry archive whose second entry is named
`./manifest` (cleaned: `manifest`) yields that entry's bytes, and any
stream of non-manifest entries is reported as manifest-not-found. -/
theorem C7_witness :
    findManifest ([ArchiveItem.next ⟨"./rootfs"⟩ [0, 1]]
        ++ ArchiveItem.next ⟨"./manifest"⟩ [123, 10] :: []) = Except.ok [123, 10] ∧
    (∀ items : List ArchiveItem, (∀ i ∈ items, isNonManifestEntry i = true) →
      findManifest items = Except.error "failed to locate manifest file") :=
  C7_findManifest_spec [ArchiveItem.next ⟨"./rootfs"⟩ [0, 1]] []
    ⟨"./manifest"⟩ [123, 10] (by decide) (by decide)

/-! ## Streaming upload (cmd_create.go, create) -/

/-- One chunk of an image upload: the server-issued upload identifier
attached to the chunk plus its payload bytes. -/
structure Chunk where
  uploadId : String
  payload : List Nat
deriving DecidableEq, Repr

/-- The observable protocol actions of the upload: sending one chunk on the
stream, closing the send side, and awaiting one acknowledgment
(`stream.CloseAndRecv`). -/
inductive UploadEvent where
  | send (c : Chunk)
  | closeSend
  | recvAck
deriving DecidableEq, Repr

/-- Modelled from the spec: the chunking performed by the byte-stream writer
(`pb.NewByteStreamWriter` and the RPC stream types live outside the provided
sources).  The spec requires the full reader content to be copied in chunks
of a uniform, deterministic size `C`; this cuts the input into maximal runs
of at most `C` bytes in order. -/
def chunkify (C : Nat) : List Nat → List (List Nat)
  | [] => []
  | b :: rest => (b :: rest.take (C - 1)) :: chunkify C (rest.drop (C - 1))
termination_by l => l.length
decreasing_by simp only [List.length_drop, List.length_cons]; omega

/-- Modelled from the spec: the upload phase of `create` (cmd_create.go
lines 59-70).  `io.Copy` drives the reader through the byte-stream writer,
which tags every chunk with the upload identifier from the create response;
afterwards the send side is closed and a single acknowledgment is awaited.
The event list is the ordered protocol trace of that phase. -/
def uploadImage (uploadId : String) (C : Nat) (data : List Nat) : List UploadEvent :=
  (chunkify C data).map (fun p => UploadEvent.send ⟨uploadId, p⟩)
    ++ [UploadEvent.closeSend, UploadEvent.recvAck]

/-- The chunks carried by the send events of an upload trace, in order. -/
def sentChunks (evs : List UploadEvent) : List Chunk :=
  evs.filterMap fun e =>
    match e with
    | UploadEvent.send c => some c
    | _ => none

theorem chunkify_length (C : Nat) (hC : 0 < C) :
    (l : List Nat) → (chunkify C l).length = (l.length + C - 1) / C
  | [] => by
    rw [chunkify]
    simp only [List.length_nil, Nat.zero_add, List.length]
    rw [Nat.div_eq_of_lt (by omega)]
  | b :: rest => by
    rw [chunkify]
    have ih := chunkify_length C hC (rest.drop (C - 1))
    simp only [List.length_cons, List.length_drop] at ih ⊢
    rw [ih]
    rcases le_or_lt (C - 1) rest.length with hle | hlt
    · have h1 : rest.length - (C - 1) + C - 1 = rest.length := by omega
      have h2 : rest.length + 1 + C - 1 = rest.length + C := by omega
      rw [h1, h2, Nat.add_div_right _ hC]
    · have h1 : rest.length - (C - 1) + C - 1 = C - 1 := by omega
      have h2 : rest.length + 1 + C - 1 = rest.length + C := by omega
      rw [h1, h2, Nat.add_div_right _ hC,
        Nat.div_eq_of_lt (by omega), Nat.div_eq_of_lt (by omega)]
  termination_by l => l.length
  decreasing_by simp only [List.length_drop, List.length_cons]; omega

theorem chunkify_flatten (C : Nat) :
    (l : List Nat) → (chunkify C l).flatten = l
  | [] => by rw [chunkify]; rfl
  | b :: rest => by
    rw [chunkify]
    simp only [List.flatten_cons, chunkify_flatten C (rest.drop (C - 1))]
    simp [List.take_append_drop]
  termination_by l => l.length
  decreasing_by simp only [List.length_drop, List.length_cons]; omega

/-- Claim C8: uploading `N` bytes with uniform chunk size `C > 0` sends
exactly `ceil(N/C)` chunks; every chunk carries the same server-issued
upload identifier; the chunk payloads concatenate back to the input (so the
sink receives exactly `N` bytes); and the trace ends with closing the send
side followed by exactly one awaited acknowledgment. -/
theorem C8_upload_chunks (uploadId : String) (C : Nat) (data : List Nat)
    (hC : 0 < C) :
    (sentChunks (uploadImage uploadId C data)).length = (data.length + C - 1) / C ∧
    (∀ c ∈ sentChunks (uploadImage uploadId C data), c.uploadId = uploadId) ∧
    ((sentChunks (uploadImage uploadId C data)).map Chunk.payload).flatten = data ∧
    uploadImage uploadId C data
      = (sentChunks (uploadImage uploadId C data)).map UploadEvent.send
          ++ [UploadEvent.closeSend, UploadEvent.recvAck] := by
  have hsent : sentChunks (uploadImage uploadId C data)
      = (chunkify C data).map (fun p => Chunk.mk uploadId p) := by
    rw [uploadImage, sentChunks]
    induction chunkify C data with
    | nil => rfl
    | cons p ps ih => simpa [List.filterMap_cons] using ih
  refine ⟨?_, ?_, ?_, ?_⟩
  · rw [hsent, List.length_map, chunkify_length C hC]
  · rw [hsent]
    intro c hc
    rcases List.mem_map.mp hc with ⟨p, _, rfl⟩
    rfl
  · rw [hsent, List.map_map]
    have : (Chunk.payload ∘ fun p => Chunk.mk uploadId p) = id := rfl
    rw [this, List.map_id, chunkify_flatten]
  · rw [hsent, List.map_map, uploadImage]
    rfl

/-- Witness for C8: seven bytes with chunk size three give three chunks
whose payloads concatenate back to the input. -/
theorem C8_witness :
    (sentChunks (uploadImage "upload-1" 3 [1, 2, 3, 4, 5, 6, 7])).length
        = (7 + 3 - 1) / 3 ∧
    ((sentChunks (uploadImage "upload-1" 3 [1, 2, 3, 4, 5, 6, 7])).map
        Chunk.payload).flatten = [1, 2, 3, 4, 5, 6, 7] :=
  ⟨(C8_upload_chunks "upload-1" 3 [1, 2, 3, 4, 5, 6, 7] (by decide)).1,
   (C8_upload_chunks "upload-1" 3 [1, 2, 3, 4, 5, 6, 7] (by decide)).2.2.1⟩

/-! ## Initial containers (bootstrap.go, startInitContainers) -/

/-- The per-image outcome of the retrieve / extract-manifest / rewind /
create pipeline. -/
inductive ImageOutcome where
  | failedRetrieve (e : String)
  | failedManifest (e : String)
  | failedSeek (e : String)
  | failedCreate (e : String)
  | launched (manifest : List Nat)
deriving DecidableEq, Repr

/-- The external collaborators of `startInitContainers`: image retrieval
(`remote.RetrieveImage`, yielding the retrieved image's archive-entry
stream), the stream rewind (`f.Seek 0 0`), and container creation through
the Container Manager (`r.manager.Create`, given the image and the
extracted manifest bytes). -/
structure ImageOracle where
  retrieveImage : String → Except String (List ArchiveItem)
  seek : String → Except String Unit
  create : String → List Nat → Except String Unit

/-- The per-image closure of `startInitContainers` (bootstrap.go lines
327-351): each stage's failure is logged and ends only this image's
pipeline. -/
def startOneContainer (o : ImageOracle) (img : String) : ImageOutcome :=
  match o.retrieveImage img with
  | Except.error e => ImageOutcome.failedRetrieve e
  | Except.ok stream =>
    match findManifest stream with
    | Except.error e => ImageOutcome.failedManifest e
    | Except.ok manifest =>
      match o.seek img with
      | Except.error e => ImageOutcome.failedSeek e
      | Except.ok _ =>
        match o.create img manifest with
        | Except.error e => ImageOutcome.failedCreate e
        | Except.ok _ => ImageOutcome.launched manifest

/-- `startInitContainers` (bootstrap.go lines 325-354): run the per-image
closure for every configured image in order and return `nil`
unconditionally. -/
def startInitContainers (o : ImageOracle) :
    List String → Except String Unit × List (String × ImageOutcome)
  | [] => (Except.ok (), [])
  | img :: rest =>
    ((startInitContainers o rest).1,
      (img, startOneContainer o img) :: (startInitContainers o rest).2)

/-- The concrete oracle for the C9 isolation example: the first image's
archive has no manifest entry, the second image's archive has one, and
rewind and creation succeed. -/
def c9Oracle : ImageOracle where
  retrieveImage := fun img =>
    if img == "image-a" then Except.ok [ArchiveItem.next ⟨"./rootfs"⟩ [0]]
    else Except.ok [ArchiveItem.next ⟨"./manifest"⟩ [42]]
  seek := fun _ => Except.ok ()
  create := fun _ _ => Except.ok ()

/-- Claim C9: whatever the collaborators do, `startInitContainers` returns
success, and every configured image is attempted with its outcome a function
of that image's own pipeline alone; in particular, when the first of two
images fails manifest extraction, the second is still attempted and is
created normally. -/
theorem C9_init_containers_isolated (o : ImageOracle) (imgs : List String) :
    (startInitContainers o imgs).1 = Except.ok () ∧
    (startInitContainers o imgs).2 = imgs.map (fun img => (img, startOneContainer o img)) ∧
    (startInitContainers c9Oracle ["image-a", "image-b"]).2
      = [("image-a", ImageOutcome.failedManifest "failed to locate manifest file"),
         ("image-b", ImageOutcome.launched [42])] := by
  refine ⟨?_, ?_, by decide⟩
  · induction imgs with
    | nil => rfl
    | cons img rest ih => simp [startInitContainers, ih]
  · induction imgs with
    | nil => rfl
    | cons img rest ih => simp [startInitContainers, ih]

end Kurma
